import Mathlib

/-!
# Verification of the md-to-pdf pagination, parsing and export logic

Shallow embedding of the JavaScript modules of the `md-to-pdf` repository:

* `UIController.addPageBreakIndicators` (src/js/ui-controller.js) — the
  pagination estimator;
* `MarkdownParser.parse` and the `pagebreak` Marked.js extension
  (src/js/markdown-parser.js);
* `MermaidRenderer.render` generation-counter logic (src/unnamed/part_004);
* `PDFGenerator.generate`, `buildHeaderFooterHtml`, `buildPrintStyles`
  (src/js/pdf-generator.js).

Pixel and millimetre quantities are modelled as rationals (`ℚ`); DOM
measurement (`getBoundingClientRect`) is modelled by measurement values
carried on the container children; JavaScript exceptions are modelled with
`Except`.
-/

namespace MdToPdf

/-! ## Pagination estimator (src/js/ui-controller.js, addPageBreakIndicators)

The preview container is a list of children.  A child is either ordinary
rendered content, a previously injected automatic page-break indicator
(class `auto-page-break`, carrying an absolute `top` offset and a
`data-page-label`), or a page-count display (class `page-number-display`).
Content children and page displays carry the vertical offset of the bottom
edge of their bounding rectangle relative to the container top, the
quantity `rect.bottom - containerRect.top` read by the measuring loop. -/

inductive PreviewChild where
  | content (bottom : ℚ)
  | autoBreak (top : ℚ) (label : String)
  | pageDisplay (bottom : ℚ) (text : String)
  deriving DecidableEq, Repr

/-- `classList.contains('auto-page-break')`. -/
def isAutoBreak : PreviewChild → Bool
  | .autoBreak _ _ => true
  | _ => false

/-- Measured bottom edge relative to the container top
(`rect.bottom - containerRect.top`).  Automatic break indicators are never
measured: they are removed before the measuring loop and skipped inside it. -/
def childBottom : PreviewChild → ℚ
  | .content b => b
  | .autoBreak t _ => t
  | .pageDisplay b _ => b

/-- `1mm = 3.7795275591 px` at the 96-dpi reference (ui-controller.js line
258). -/
def MM_TO_PX : ℚ := 37795275591 / 10000000000

/-- Paper dimensions table of ui-controller.js (`PAPER_DIMENSIONS`), mm. -/
structure PaperDim where
  width : ℚ
  height : ℚ
  deriving DecidableEq, Repr

/-- `PAPER_DIMENSIONS` from src/js/ui-controller.js lines 217-223. -/
def paperDimensionsUI : String → Option PaperDim
  | "a4" => some ⟨210, 297⟩
  | "letter" => some ⟨215.9, 279.4⟩
  | "legal" => some ⟨215.9, 355.6⟩
  | "a3" => some ⟨297, 420⟩
  | "a5" => some ⟨148, 210⟩
  | _ => none

/-- `pageHeight = (dimensions.height - margins.top - margins.bottom) * MM_TO_PX`
(ui-controller.js line 259).  Note that the preview path does not consult the
orientation and performs no clamping of the margins. -/
def previewPageHeightPx (d : PaperDim) (marginTop marginBottom : ℚ) : ℚ :=
  (d.height - marginTop - marginBottom) * MM_TO_PX

/-- The measuring loop of lines 266-280: fold over the children, skipping
`auto-page-break` elements, keeping the largest bottom edge seen so far,
starting from `0`. -/
def actualContentHeight (cs : List PreviewChild) : ℚ :=
  cs.foldl
    (fun acc c =>
      if isAutoBreak c then acc
      else if childBottom c > acc then childBottom c else acc)
    0

/-- `totalPages = Math.max(1, Math.ceil(actualContentHeight / pageHeight))`
(line 282). -/
def totalPagesOf (h pageHeight : ℚ) : ℤ :=
  max 1 ⌈h / pageHeight⌉

/-- The auto page-break indicators inserted by the loop of lines 285-293:
for `page = 1` to `totalPages - 1`, a div with class `auto-page-break`,
`data-page-label` = `page + " / " + totalPages` and `style.top` =
`page * pageHeight`. -/
def autoBreaksFor (tp : ℤ) (pageHeight : ℚ) : List PreviewChild :=
  (List.range (tp - 1).toNat).map fun (i : ℕ) =>
    PreviewChild.autoBreak (((i : ℚ) + 1) * pageHeight)
      (toString ((i : ℤ) + 1) ++ " / " ++ toString tp)

/-- One run of `addPageBreakIndicators` (lines 251-300):
remove the existing `auto-page-break` children, measure the remaining
children, compute `totalPages`, append fresh break indicators, and append a
`page-number-display` div.  `displayBottom` is the bottom-edge measurement
the newly appended display will report on a later layout pass (its layout is
decided by the page CSS, outside this code). -/
def addPageBreakIndicators (pageHeight displayBottom : ℚ)
    (cs : List PreviewChild) : List PreviewChild :=
  let kept := cs.filter fun c => !isAutoBreak c
  let h := actualContentHeight kept
  let tp := totalPagesOf h pageHeight
  kept ++ autoBreaksFor tp pageHeight ++
    [PreviewChild.pageDisplay displayBottom
      (toString tp ++ " page" ++ (if tp > 1 then "s" else ""))]

/-- Content height measured by one `estimate()` run: the container's
`auto-page-break` children are removed first, the rest are measured. -/
def estimatedHeight (cs : List PreviewChild) : ℚ :=
  actualContentHeight (cs.filter fun c => !isAutoBreak c)

/-- `totalPages` reported by one `estimate()` run on a container. -/
def estimateTotalPages (ph : ℚ) (cs : List PreviewChild) : ℤ :=
  totalPagesOf (estimatedHeight cs) ph

theorem isAutoBreak_content (b : ℚ) : isAutoBreak (.content b) = false := rfl

theorem isAutoBreak_autoBreak (t : ℚ) (l : String) :
    isAutoBreak (.autoBreak t l) = true := rfl

theorem isAutoBreak_pageDisplay (b : ℚ) (t : String) :
    isAutoBreak (.pageDisplay b t) = false := rfl

theorem filter_not_auto_filter_auto (cs : List PreviewChild) :
    (cs.filter fun c => !isAutoBreak c).filter isAutoBreak = [] := by
  induction cs with
  | nil => rfl
  | cons c cs ih =>
    by_cases h : isAutoBreak c <;> simp [List.filter_cons, h, ih]

theorem filter_auto_autoBreaksFor (tp : ℤ) (ph : ℚ) :
    (autoBreaksFor tp ph).filter isAutoBreak = autoBreaksFor tp ph := by
  refine List.filter_eq_self.mpr fun a ha => ?_
  rcases List.mem_map.mp ha with ⟨i, _, rfl⟩
  rfl

theorem filter_not_auto_autoBreaksFor (tp : ℤ) (ph : ℚ) :
    (autoBreaksFor tp ph).filter (fun c => !isAutoBreak c) = [] := by
  refine List.filter_eq_nil_iff.mpr fun a ha => ?_
  rcases List.mem_map.mp ha with ⟨i, _, rfl⟩
  simp [isAutoBreak]

/-- After a run, the `auto-page-break` children of the container are exactly
the freshly computed indicators. -/
theorem filter_auto_addPageBreakIndicators (ph db : ℚ) (cs : List PreviewChild) :
    (addPageBreakIndicators ph db cs).filter isAutoBreak
      = autoBreaksFor (estimateTotalPages ph cs) ph := by
  unfold addPageBreakIndicators
  simp [List.filter_append, filter_not_auto_filter_auto, filter_auto_autoBreaksFor,
    isAutoBreak, estimateTotalPages, estimatedHeight]

/-- The non-marker children left after a run: the previous non-marker
children followed by the freshly appended page-count display. -/
theorem filter_not_auto_addPageBreakIndicators (ph db : ℚ) (cs : List PreviewChild) :
    (addPageBreakIndicators ph db cs).filter (fun c => !isAutoBreak c)
      = cs.filter (fun c => !isAutoBreak c) ++
        [PreviewChild.pageDisplay db
          (toString (estimateTotalPages ph cs) ++ " page" ++
            (if estimateTotalPages ph cs > 1 then "s" else ""))] := by
  unfold addPageBreakIndicators
  simp only [List.filter_append, filter_not_auto_autoBreaksFor, List.filter_filter,
    Bool.and_self, List.append_nil, List.nil_append, List.filter_cons,
    isAutoBreak_pageDisplay, Bool.not_false, if_true, List.filter_nil,
    estimateTotalPages, estimatedHeight]

/-- Folding the measuring loop over one extra trailing child. -/
theorem actualContentHeight_append_single (cs : List PreviewChild) (c : PreviewChild) :
    actualContentHeight (cs ++ [c])
      = if isAutoBreak c then actualContentHeight cs
        else if childBottom c > actualContentHeight cs then childBottom c
        else actualContentHeight cs := by
  unfold actualContentHeight
  rw [List.foldl_append]
  rfl

/-- The content height measured on the container a run leaves behind:
the old height, or the display's own measured bottom if that is larger. -/
theorem estimatedHeight_addPageBreakIndicators (ph db : ℚ) (cs : List PreviewChild) :
    estimatedHeight (addPageBreakIndicators ph db cs)
      = if db > estimatedHeight cs then db else estimatedHeight cs := by
  unfold estimatedHeight
  rw [filter_not_auto_addPageBreakIndicators, actualContentHeight_append_single]
  rfl

theorem autoBreaksFor_nodup (tp : ℤ) (ph : ℚ) (hp : ph ≠ 0) :
    (autoBreaksFor tp ph).Nodup := by
  refine List.Nodup.map ?_ (List.nodup_range _)
  intro a b hab
  have h1 : ((a : ℚ) + 1) * ph = ((b : ℚ) + 1) * ph := by
    injection hab
  have h2 : ((a : ℚ) + 1) = ((b : ℚ) + 1) := mul_right_cancel₀ hp h1
  have h3 : (a : ℚ) = (b : ℚ) := by linarith
  exact_mod_cast h3

theorem autoBreak_mem_autoBreaksFor (tp : ℤ) (ph : ℚ) (k : ℕ)
    (h1 : 1 ≤ k) (h2 : (k : ℤ) ≤ tp - 1) :
    PreviewChild.autoBreak ((k : ℚ) * ph) (toString (k : ℤ) ++ " / " ++ toString tp)
      ∈ autoBreaksFor tp ph := by
  refine List.mem_map.mpr ⟨k - 1, List.mem_range.mpr (by omega), ?_⟩
  have hq : ((k - 1 : ℕ) : ℚ) + 1 = (k : ℚ) := by
    have : ((k - 1 : ℕ) : ℚ) = (k : ℚ) - 1 := by
      push_cast [Nat.cast_sub h1]
      ring
    rw [this]; ring
  have hz : ((k - 1 : ℕ) : ℤ) + 1 = (k : ℤ) := by omega
  rw [hq, hz]

/-- **C1.** One `addPageBreakIndicators` run on any container and positive
page height: `totalPages = max(1, ceil(actualContentHeight / pageHeightPx))`;
the automatic markers present afterwards are exactly one marker at offset
`k * pageHeightPx` labeled `k ++ " / " ++ totalPages` for each
`k = 1 .. totalPages - 1`; zero content height gives `totalPages = 1` and no
automatic markers; content height `2.5 ×` the page height gives
`totalPages = 3`. -/
theorem c1_pagination_estimate (cs : List PreviewChild) (ph db : ℚ) (hp : 0 < ph) :
    estimateTotalPages ph cs = max 1 ⌈estimatedHeight cs / ph⌉ ∧
    (addPageBreakIndicators ph db cs).filter isAutoBreak
      = autoBreaksFor (estimateTotalPages ph cs) ph ∧
    (∀ k : ℕ, 1 ≤ k → (k : ℤ) ≤ estimateTotalPages ph cs - 1 →
      (addPageBreakIndicators ph db cs).count
        (PreviewChild.autoBreak ((k : ℚ) * ph)
          (toString (k : ℤ) ++ " / " ++ toString (estimateTotalPages ph cs))) = 1) ∧
    (estimatedHeight cs = 0 →
      estimateTotalPages ph cs = 1 ∧
      (addPageBreakIndicators ph db cs).filter isAutoBreak = []) ∧
    (estimatedHeight cs = 5/2 * ph → estimateTotalPages ph cs = 3) := by
  have hmax10 : max (1 : ℤ) 0 = 1 := by decide
  have hone : estimatedHeight cs = 0 → estimateTotalPages ph cs = 1 := by
    intro h0
    unfold estimateTotalPages totalPagesOf
    rw [h0, zero_div, Int.ceil_zero, hmax10]
  refine ⟨rfl, filter_auto_addPageBreakIndicators ph db cs, ?_, ?_, ?_⟩
  · intro k hk1 hk2
    unfold addPageBreakIndicators
    rw [List.count_append, List.count_append]
    have hkept :
        ((cs.filter fun c => !isAutoBreak c).count
          (PreviewChild.autoBreak ((k : ℚ) * ph)
            (toString (k : ℤ) ++ " / " ++ toString (estimateTotalPages ph cs)))) = 0 := by
      refine List.count_eq_zero.mpr fun hx => ?_
      have h := List.of_mem_filter hx
      simp [isAutoBreak] at h
    have hbrk :
        ((autoBreaksFor (totalPagesOf
            (actualContentHeight (cs.filter fun c => !isAutoBreak c)) ph) ph).count
          (PreviewChild.autoBreak ((k : ℚ) * ph)
            (toString (k : ℤ) ++ " / " ++ toString (estimateTotalPages ph cs)))) = 1 :=
      List.count_eq_one_of_mem (autoBreaksFor_nodup _ _ hp.ne')
        (autoBreak_mem_autoBreaksFor _ _ k hk1 hk2)
    have hdisp :
        (([PreviewChild.pageDisplay db
            (toString (totalPagesOf
              (actualContentHeight (cs.filter fun c => !isAutoBreak c)) ph) ++ " page" ++
              (if totalPagesOf
                (actualContentHeight (cs.filter fun c => !isAutoBreak c)) ph > 1
               then "s" else ""))]).count
          (PreviewChild.autoBreak ((k : ℚ) * ph)
            (toString (k : ℤ) ++ " / " ++ toString (estimateTotalPages ph cs)))) = 0 := by
      refine List.count_eq_zero.mpr fun hx => ?_
      simp at hx
    rw [hkept, hbrk, hdisp]
  · intro h0
    refine ⟨hone h0, ?_⟩
    rw [filter_auto_addPageBreakIndicators, hone h0]
    simp [autoBreaksFor]
  · intro h
    unfold estimateTotalPages totalPagesOf
    rw [h, mul_div_assoc, div_self hp.ne', mul_one]
    have hc : ⌈(5 / 2 : ℚ)⌉ = 3 := by
      rw [Int.ceil_eq_iff]; norm_num
    rw [hc]
    decide

/-- Witness for C1 at a concrete container: a single content child of
height 2500 px and a 1000 px page gives three pages and markers at 1000 and
2000. -/
theorem c1_pagination_estimate_witness :
    estimateTotalPages 1000 [PreviewChild.content 2500] = 3 ∧
    (addPageBreakIndicators 1000 0 [PreviewChild.content 2500]).filter isAutoBreak
      = autoBreaksFor 3 1000 := by
  have hh : estimatedHeight [PreviewChild.content 2500] = 5 / 2 * 1000 := by
    unfold estimatedHeight actualContentHeight
    norm_num [isAutoBreak, childBottom]
  have H := c1_pagination_estimate [PreviewChild.content 2500] 1000 0 (by norm_num)
  have h3 := H.2.2.2.2 hh
  exact ⟨h3, by rw [H.2.1, h3]⟩

/-- **C2 counterexample.** A4 portrait with all margins 10 mm gives a page
content height of `(297 - 10 - 10) × 3.7795275591 ≈ 1046.93 px`; measured
content of 2100 px then spans `2100 / 1046.93 ≈ 2.006` pages, so the code
computes `totalPages = 3`, not the 2 the claim states. -/
theorem c2_counterexample :
    totalPagesOf 2100 (previewPageHeightPx ⟨210, 297⟩ 10 10) ≠ 2 := by
  have hc : ⌈(2100 : ℚ) / ((297 - 10 - 10) * MM_TO_PX)⌉ = 3 := by
    rw [Int.ceil_eq_iff]
    constructor
    · rw [lt_div_iff₀ (by norm_num [MM_TO_PX])]
      norm_num [MM_TO_PX]
    · rw [div_le_iff₀ (by norm_num [MM_TO_PX])]
      norm_num [MM_TO_PX]
  unfold totalPagesOf previewPageHeightPx
  rw [hc]
  decide

/-- **C2 amended.** For A4 with 10 mm top and bottom margins the page
content height is exactly `277 × 3.7795275591` px, which lies strictly
between 1046 and 1047 px (so the claim's `≈ 1047.17` is off), and a 2100 px
content column yields `totalPages = 3`. -/
theorem c2_a4_page_height :
    previewPageHeightPx ⟨210, 297⟩ 10 10 = 277 * MM_TO_PX ∧
    1046 < previewPageHeightPx ⟨210, 297⟩ 10 10 ∧
    previewPageHeightPx ⟨210, 297⟩ 10 10 < 1047 ∧
    totalPagesOf 2100 (previewPageHeightPx ⟨210, 297⟩ 10 10) = 3 := by
  have hc : ⌈(2100 : ℚ) / ((297 - 10 - 10) * MM_TO_PX)⌉ = 3 := by
    rw [Int.ceil_eq_iff]
    constructor
    · rw [lt_div_iff₀ (by norm_num [MM_TO_PX])]
      norm_num [MM_TO_PX]
    · rw [div_le_iff₀ (by norm_num [MM_TO_PX])]
      norm_num [MM_TO_PX]
  refine ⟨?_, ?_, ?_, ?_⟩
  · unfold previewPageHeightPx; norm_num
  · norm_num [previewPageHeightPx, MM_TO_PX]
  · norm_num [previewPageHeightPx, MM_TO_PX]
  · unfold totalPagesOf previewPageHeightPx
    rw [hc]
    decide

/-- **C3 counterexample.** Re-running the estimator on unchanged content and
geometry appends a second `page-number-display` child without removing the
first: the container grows by one child per run, so the number of children
the estimator has added grows across runs. -/
theorem c3_counterexample :
    (addPageBreakIndicators 1000 0
        (addPageBreakIndicators 1000 0 [PreviewChild.content 100])).length
      = (addPageBreakIndicators 1000 0 [PreviewChild.content 100]).length + 1 := by
  have hc : ⌈(1 : ℚ) / 10⌉ = 1 := by
    rw [Int.ceil_eq_iff]; norm_num
  have h1 : addPageBreakIndicators 1000 0 [PreviewChild.content 100]
      = [PreviewChild.content 100, PreviewChild.pageDisplay 0 "1 page"] := by
    unfold addPageBreakIndicators totalPagesOf actualContentHeight
    norm_num [isAutoBreak, childBottom, List.filter_cons, hc, autoBreaksFor]
    decide
  have h2 : addPageBreakIndicators 1000 0
        [PreviewChild.content 100, PreviewChild.pageDisplay 0 "1 page"]
      = [PreviewChild.content 100, PreviewChild.pageDisplay 0 "1 page",
         PreviewChild.pageDisplay 0 "1 page"] := by
    unfold addPageBreakIndicators totalPagesOf actualContentHeight
    norm_num [isAutoBreak, childBottom, List.filter_cons, hc, autoBreaksFor]
    decide
  rw [h1, h2]
  rfl

/-- **C3 amended.** Two successive estimator runs on unchanged content and
geometry agree on `totalPages` and produce identical automatic markers, and
the `auto-page-break` marker count does not grow (old markers are fully
replaced) — provided the page-count display appended by the first run
measures no lower than the existing content (its bottom offset is at most
the measured content height).  The *total* child count still grows, because
each run appends a fresh `page-number-display` that is never removed (see
the counterexample). -/
theorem c3_estimator_idempotent (cs : List PreviewChild) (ph db db₂ : ℚ)
    (hdb : db ≤ estimatedHeight cs) :
    estimateTotalPages ph (addPageBreakIndicators ph db cs)
      = estimateTotalPages ph cs ∧
    (addPageBreakIndicators ph db₂ (addPageBreakIndicators ph db cs)).filter isAutoBreak
      = (addPageBreakIndicators ph db cs).filter isAutoBreak ∧
    ((addPageBreakIndicators ph db₂ (addPageBreakIndicators ph db cs)).filter
        isAutoBreak).length
      = ((addPageBreakIndicators ph db cs).filter isAutoBreak).length := by
  have hh : estimatedHeight (addPageBreakIndicators ph db cs) = estimatedHeight cs := by
    rw [estimatedHeight_addPageBreakIndicators]
    have : ¬ db > estimatedHeight cs := not_lt.mpr hdb
    simp [this]
  have htp : estimateTotalPages ph (addPageBreakIndicators ph db cs)
      = estimateTotalPages ph cs := by
    unfold estimateTotalPages
    rw [hh]
  have hf : (addPageBreakIndicators ph db₂ (addPageBreakIndicators ph db cs)).filter
        isAutoBreak
      = (addPageBreakIndicators ph db cs).filter isAutoBreak := by
    rw [filter_auto_addPageBreakIndicators, filter_auto_addPageBreakIndicators, htp]
  exact ⟨htp, hf, by rw [hf]⟩

/-- Witness for C3 amended, on a 100 px content child with a 1000 px page
and a display measured at offset 0. -/
theorem c3_estimator_idempotent_witness :
    estimateTotalPages 1000 (addPageBreakIndicators 1000 0 [PreviewChild.content 100])
      = estimateTotalPages 1000 [PreviewChild.content 100] ∧
    (addPageBreakIndicators 1000 0
        (addPageBreakIndicators 1000 0 [PreviewChild.content 100])).filter isAutoBreak
      = (addPageBreakIndicators 1000 0 [PreviewChild.content 100]).filter isAutoBreak := by
  have hdb : (0 : ℚ) ≤ estimatedHeight [PreviewChild.content 100] := by
    unfold estimatedHeight actualContentHeight
    norm_num [isAutoBreak, childBottom]
  have H := c3_estimator_idempotent [PreviewChild.content 100] 1000 0 0 hdb
  exact ⟨H.1, H.2.1⟩

/-- **C9 counterexample.** A4 portrait (297 mm high) with 150 mm top and
bottom margins: the derived page content height is negative — the code
neither clamps nor rejects the configuration. -/
theorem c9_counterexample :
    ¬ (0 < previewPageHeightPx ⟨210, 297⟩ 150 150) := by
  norm_num [previewPageHeightPx, MM_TO_PX]

/-- **C9 amended.** No clamping or rejection happens anywhere: margins that
meet or exceed the paper height produce a non-positive content height
(strictly negative for 150 mm + 150 mm on A4), the print-style builder
likewise emits the oversized margins unchanged, and the preview estimator
merely degrades gracefully on a negative page height: any non-negative
measured content then reports `totalPages = 1` with no automatic markers. -/
theorem c9_no_clamping (h ph : ℚ) (hh : 0 ≤ h) (hph : ph < 0) :
    previewPageHeightPx ⟨210, 297⟩ 150 150 < 0 ∧
    totalPagesOf h ph = 1 ∧
    autoBreaksFor (totalPagesOf h ph) ph = [] := by
  have hq : h / ph ≤ 0 := div_nonpos_iff.mpr (Or.inl ⟨hh, hph.le⟩)
  have hc : ⌈h / ph⌉ ≤ 0 := Int.ceil_le.mpr (by exact_mod_cast hq)
  have htp : totalPagesOf h ph = 1 := by
    unfold totalPagesOf
    exact max_eq_left (by omega)
  refine ⟨by norm_num [previewPageHeightPx, MM_TO_PX], htp, ?_⟩
  rw [htp]
  simp [autoBreaksFor]

/-- Witness for C9 amended at content height 0 and page height −1. -/
theorem c9_no_clamping_witness :
    totalPagesOf 0 (-1) = 1 := (c9_no_clamping 0 (-1) le_rfl (by norm_num)).2.1

/-! ## Mermaid renderer generation counter (src/unnamed/part_004)

`MermaidRenderer.render` captures `renderId = ++currentRenderId` before the
asynchronous `mermaid.run` call; when the completion resumes it compares the
captured id against the current counter and silently returns `false` when
they differ.  The container, for this module, is the list of
`.mermaid-container` wrappers; `displayErrors` (lines 66-89) appends one
inline error annotation to every wrapper whose `.mermaid` child holds no
rendered SVG and no previous annotation. -/

/-- One `.mermaid-container` wrapper: whether its `.mermaid` element already
holds a rendered `svg`, and whether a `.mermaid-error` annotation is already
present. -/
structure MermaidWrapper where
  hasSvg : Bool
  hasError : Bool
  deriving DecidableEq, Repr

/-- `displayErrors` (part_004 lines 66-89): annotate every wrapper whose
diagram failed to render (no SVG) and which carries no annotation yet. -/
def displayErrors (ws : List MermaidWrapper) : List MermaidWrapper :=
  ws.map fun w =>
    if !w.hasSvg && !w.hasError then { w with hasError := true } else w

/-- The mutable module state: the monotonic render-generation counter
(`currentRenderId`). -/
structure MermaidState where
  currentRenderId : ℕ
  deriving DecidableEq, Repr

/-- Line 32, `const renderId = ++currentRenderId`: increment the counter and
capture its new value. -/
def renderStart (s : MermaidState) : MermaidState × ℕ :=
  (⟨s.currentRenderId + 1⟩, s.currentRenderId + 1)

/-- Outcome of the awaited `mermaid.run` call. -/
inductive MermaidOutcome where
  | ok
  | err
  deriving DecidableEq, Repr

/-- Result of the completion handler: the container contents, the boolean
returned by `render`, and whether `displayErrors` ran. -/
structure CompletionResult where
  container : List MermaidWrapper
  returned : Bool
  displayErrorsCalled : Bool
  deriving DecidableEq, Repr

/-- The completion handler of `render` (part_004 lines 39-58), resuming
after `await mermaid.run` with captured generation `renderId`:
on success, return `false` if stale, else `true`; on error, return `false`
if stale, else show the inline annotations when `showErrors` is set and
return `false`. -/
def renderComplete (renderId : ℕ) (s : MermaidState) (outcome : MermaidOutcome)
    (showErrors : Bool) (c : List MermaidWrapper) : CompletionResult :=
  match outcome with
  | .ok =>
    if renderId ≠ s.currentRenderId then ⟨c, false, false⟩
    else ⟨c, true, false⟩
  | .err =>
    if renderId ≠ s.currentRenderId then ⟨c, false, false⟩
    else if showErrors then ⟨displayErrors c, false, true⟩
    else ⟨c, false, false⟩

/-- **C4.** If a render of generation `N` starts after the render of
generation `N − 1` started, then when the older completion arrives it sees a
counter that differs from its captured generation, leaves the container
untouched, calls `displayErrors` on nothing, and returns `false` — for every
prior state, container, outcome and `showErrors` flag. -/
theorem c4_stale_completion_dropped (s₀ : MermaidState) (c : List MermaidWrapper)
    (outcome : MermaidOutcome) (showErrors : Bool) :
    (renderStart s₀).2 ≠ ((renderStart (renderStart s₀).1).1).currentRenderId ∧
    renderComplete (renderStart s₀).2 (renderStart (renderStart s₀).1).1
        outcome showErrors c
      = ⟨c, false, false⟩ := by
  have hne : (renderStart s₀).2 ≠ ((renderStart (renderStart s₀).1).1).currentRenderId := by
    simp [renderStart]
  refine ⟨hne, ?_⟩
  cases outcome <;> simp [renderComplete, hne]

/-! ## Export container lifecycle (src/js/pdf-generator.js, generate)

`generate` appends the detached styled container to `document.body`
(line 547), awaits `waitForRender` (line 550), optionally runs the Mermaid
renderer and the SVG polling loop (lines 553-556), and removes the container
at line 562 — with no `try`/`finally` around any of it.  The model records,
for each phase, whether that phase throws, and reports the returned result
together with whether the container is still attached when control leaves
`generate`. -/

inductive ExportPhase where
  | waitRenderPhase
  | mermaidPhase
  | waitSvgsPhase
  | assemblePhase
  deriving DecidableEq, Repr

/-- Result of one `generate` call: `result` is `.ok` on normal return and
`.error` when an exception propagates out; `containerAttached` tells whether
the detached export container is still in the document at that moment. -/
structure ExportOutcome where
  result : Except Unit Unit
  containerAttached : Bool
  deriving Repr

/-- Control flow of `generate` (pdf-generator.js lines 535-649) restricted
to the lifecycle of the temporary container.  `throws p` says whether phase
`p` raises an exception; the container is appended before `waitForRender`
and removed only by the single straight-line `removeChild` at line 562. -/
def generateLifecycle (renderMermaid : Bool) (throws : ExportPhase → Bool) :
    ExportOutcome :=
  -- document.body.appendChild(container): attached from here on
  if throws .waitRenderPhase then ⟨Except.error (), true⟩
  else if renderMermaid && throws .mermaidPhase then ⟨Except.error (), true⟩
  else if renderMermaid && throws .waitSvgsPhase then ⟨Except.error (), true⟩
  else
    -- document.body.removeChild(container) at line 562
    if throws .assemblePhase then ⟨Except.error (), false⟩
    else ⟨Except.ok (), false⟩

/-- **C5 counterexample.** An exception thrown while rendering diagrams
inside `generate` propagates out with the detached export container still
attached to the document: there is no `finally` cleanup on that path. -/
theorem c5_counterexample :
    (generateLifecycle true fun p => p = ExportPhase.mermaidPhase)
      = ⟨Except.error (), true⟩ := rfl

/-- **C5 amended.** The detached container is removed before `generate`
returns on every path that reaches the removal point: whenever none of the
phases before the `removeChild` at line 562 throws (so on the fully normal
path and also when the later iframe-assembly phase fails), the container is
detached on exit.  An exception during `waitForRender`, diagram rendering or
SVG polling, however, leaves it attached (see the counterexample). -/
theorem c5_container_removed (renderMermaid : Bool) (throws : ExportPhase → Bool)
    (h : ∀ p, p ≠ ExportPhase.assemblePhase → throws p = false) :
    (generateLifecycle renderMermaid throws).containerAttached = false := by
  have h1 := h .waitRenderPhase (by simp)
  have h2 := h .mermaidPhase (by simp)
  have h3 := h .waitSvgsPhase (by simp)
  unfold generateLifecycle
  rw [h1, h2, h3]
  cases hb : throws ExportPhase.assemblePhase <;> simp

/-- Witness for C5 amended: no phase throws, container detached on exit. -/
theorem c5_container_removed_witness :
    (generateLifecycle true fun _ => false).containerAttached = false :=
  c5_container_removed true (fun _ => false) (fun _ _ => rfl)

/-! ## Markdown parsing entry point (src/js/markdown-parser.js, parse)

`parse(text)` guards its input with `if (!text || typeof text !== 'string')
return ''` and wraps the delegated `marked.parse(text)` in `try`/`catch`,
returning a fixed visible placeholder paragraph when the parser throws.
JavaScript values reaching the public interface are modelled by `JsVal`;
the external `marked.parse`, which may throw, is a parameter of type
`String → Except String String`.  `parse` itself is a *total* Lean
function — the embedding of "never throws". -/

inductive JsVal where
  | vstr (s : String)
  | vnull
  | vundef
  | vnum (n : ℤ)
  | vbool (b : Bool)
  | vobj
  deriving DecidableEq, Repr

/-- JavaScript truthiness test `!text`. -/
def jsFalsy : JsVal → Bool
  | .vstr s => s == ""
  | .vnull => true
  | .vundef => true
  | .vnum n => n == 0
  | .vbool b => !b
  | .vobj => false

/-- `typeof text !== 'string'`. -/
def jsIsString : JsVal → Bool
  | .vstr _ => true
  | _ => false

/-- The inline fallback fragment returned on parser failure
(markdown-parser.js line 271). -/
def errorPlaceholder : String :=
  "<p style=\x22color: red;\x22>Error parsing markdown</p>"

/-- `MarkdownParser.parse` (markdown-parser.js lines 262-273). -/
def parse (markedParse : String → Except String String) (text : JsVal) : String :=
  if jsFalsy text || !jsIsString text then ""
  else
    match text with
    | .vstr s =>
      match markedParse s with
      | .ok html => html
      | .error _ => errorPlaceholder
    | _ => ""

/-- **C6.** `parse` is total (it is a plain function into `String`, the
embedding of "never throws"), and whenever the underlying parser raises an
exception on a non-empty string input, `parse` returns the visible inline
error placeholder instead of propagating the failure. -/
theorem c6_parse_never_throws (markedParse : String → Except String String)
    (s : String) (e : String) (hs : s ≠ "") (he : markedParse s = Except.error e) :
    parse markedParse (JsVal.vstr s) = errorPlaceholder ∧
    errorPlaceholder ≠ "" := by
  have hfalsy : jsFalsy (JsVal.vstr s) = false := by
    simp [jsFalsy, hs]
  constructor
  · unfold parse
    rw [hfalsy]
    simp [jsIsString, he]
  · decide

/-- Witness for C6: a parser that always throws still yields the
placeholder on input `"x"`. -/
theorem c6_parse_never_throws_witness :
    parse (fun _ => Except.error "boom") (JsVal.vstr "x") = errorPlaceholder :=
  (c6_parse_never_throws (fun _ => Except.error "boom") "x" "boom"
    (by decide) rfl).1

/-- **C10.** The unstated edge case of the public parsing interface: the
empty string, `null`, `undefined`, and every non-string value (numbers,
booleans, plain objects) all make `parse` return the empty string — not the
error placeholder and not an exception — whatever the underlying parser
does. -/
theorem c10_parse_non_string_inputs (markedParse : String → Except String String) :
    parse markedParse (JsVal.vstr "") = "" ∧
    parse markedParse JsVal.vnull = "" ∧
    parse markedParse JsVal.vundef = "" ∧
    (∀ n : ℤ, parse markedParse (JsVal.vnum n) = "") ∧
    (∀ b : Bool, parse markedParse (JsVal.vbool b) = "") ∧
    parse markedParse JsVal.vobj = "" ∧
    errorPlaceholder ≠ "" := by
  refine ⟨rfl, rfl, rfl, fun n => ?_, fun b => ?_, rfl, by decide⟩
  · unfold parse
    simp [jsIsString]
  · unfold parse
    simp [jsIsString]

/-! ## The pagebreak Marked.js extension (src/js/markdown-parser.js 165-190)

The extension's `tokenizer` matches the regular expression
`^<!-- ?pagebreak ?-->\n?` at the start of the remaining source and returns
a block token of type `pagebreak` whose `raw` is the matched text; its
`renderer` emits the single block element
`<div class="page-break"></div>\n`.  Source text is a `List Char`.
Since a space never starts `pagebreak` or `-->`, the regex's greedy
optional spaces are equivalent to the committed single-character
consumption used here. -/

/-- Consume an exact literal from the front of the input, or fail. -/
def dropPrefixCh : List Char → List Char → Option (List Char)
  | [], s => some s
  | _ :: _, [] => none
  | p :: ps, c :: cs => if p = c then dropPrefixCh ps cs else none

theorem dropPrefixCh_length_le (p : List Char) :
    ∀ s r : List Char, dropPrefixCh p s = some r → r.length ≤ s.length := by
  induction p with
  | nil =>
    intro s r h
    simp [dropPrefixCh] at h
    simp [h]
  | cons x xs ih =>
    intro s r h
    cases s with
    | nil => simp [dropPrefixCh] at h
    | cons c cs =>
      simp only [dropPrefixCh] at h
      by_cases hx : x = c
      · rw [if_pos hx] at h
        have := ih cs r h
        simp
        omega
      · rw [if_neg hx] at h
        cases h

theorem dropPrefixCh_length_lt (x : Char) (xs : List Char)
    (s r : List Char) (h : dropPrefixCh (x :: xs) s = some r) :
    r.length < s.length := by
  cases s with
  | nil => simp [dropPrefixCh] at h
  | cons c cs =>
    simp only [dropPrefixCh] at h
    by_cases hx : x = c
    · rw [if_pos hx] at h
      have := dropPrefixCh_length_le xs cs r h
      simp
      omega
    · rw [if_neg hx] at h
      cases h

/-- Consume one optional occurrence of a character (the regex `c?`). -/
def optCh (ch : Char) : List Char → List Char
  | [] => []
  | c :: cs => if c = ch then cs else c :: cs

theorem optCh_length_le (ch : Char) (s : List Char) :
    (optCh ch s).length ≤ s.length := by
  cases s with
  | nil => simp [optCh]
  | cons c cs =>
    by_cases h : c = ch
    · simp [optCh, h]
    · simp [optCh, h]

/-- The tokenizer's rule `^<!-- ?pagebreak ?-->\n?` (markdown-parser.js line
175): returns the remaining source after the matched raw text, or `none`
when the source does not start with the page-break token. -/
def matchPagebreak (s : List Char) : Option (List Char) :=
  (dropPrefixCh ("<!--".toList) s).bind fun r1 =>
  (dropPrefixCh ("pagebreak".toList) (optCh ' ' r1)).bind fun r3 =>
  (dropPrefixCh ("-->".toList) (optCh ' ' r3)).map fun r5 =>
  optCh '\n' r5

theorem matchPagebreak_length (s rest : List Char)
    (h : matchPagebreak s = some rest) : rest.length < s.length := by
  unfold matchPagebreak at h
  simp only [Option.bind_eq_some, Option.map_eq_some'] at h
  obtain ⟨r1, h1, r3, h2, r5, h3, hrest⟩ := h
  have l1 : r1.length < s.length := dropPrefixCh_length_lt '<' _ s r1 h1
  have l2 := dropPrefixCh_length_le ("pagebreak".toList) _ r3 h2
  have l3 := dropPrefixCh_length_le ("-->".toList) _ r5 h3
  have l4 := optCh_length_le ' ' r1
  have l5 := optCh_length_le ' ' r3
  have l6 := optCh_length_le '\n' r5
  subst hrest
  omega

/-- A block token produced by the extension: `{ type: 'pagebreak', raw }`. -/
inductive MarkedToken where
  | pagebreak (raw : List Char)
  deriving DecidableEq, Repr

/-- The extension's `tokenizer(src)` (lines 173-185): a `pagebreak` token
whose `raw` is the matched prefix, or `undefined`. -/
def pagebreakTokenizer (src : List Char) : Option MarkedToken :=
  (matchPagebreak src).map fun rest =>
    MarkedToken.pagebreak (src.take (src.length - rest.length))

/-- The extension's declared `level` (line 167). -/
def pagebreakExtensionLevel : String := "block"

/-- The extension's `renderer()` output (line 188). -/
def pagebreakRendererOutput : List Char :=
  "<div class=\x22page-break\x22></div>\n".toList

/-- Number of positions at which `pat` occurs in the subject. -/
def countOccur (pat : List Char) : List Char → ℕ
  | [] => 0
  | c :: cs =>
    (if pat.isPrefixOf (c :: cs) then 1 else 0) + countOccur pat cs

theorem lengthDropWhileLe (p : Char → Bool) (l : List Char) :
    (l.dropWhile p).length ≤ l.length := by
  induction l with
  | nil => simp [List.dropWhile]
  | cons c cs ih =>
    cases hp : p c
    · simp [List.dropWhile, hp]
    · simp [List.dropWhile, hp]
      omega

/-- A rendered block of the output document. -/
inductive Block where
  | pagebreakDiv
  | hr
  | other (line : List Char)
  deriving DecidableEq, Repr

/-- Block-level driver modelling Marked.js's block tokenization loop with
the registered extension: at each position the `pagebreak` extension is
tried first (custom extensions run before built-in block rules); when it
fails, one source line is consumed as an ordinary block — a line that is
exactly `---` becomes a built-in horizontal rule (kept distinct from the
page break, per the comment at markdown-parser.js lines 163-164). -/
def tokenize (src : List Char) : List Block :=
  match src with
  | [] => []
  | c :: cs =>
    match h : matchPagebreak (c :: cs) with
    | some rest => Block.pagebreakDiv :: tokenize rest
    | none =>
      let line := (c :: cs).takeWhile (fun a => a ≠ '\n')
      let rest2 := ((c :: cs).dropWhile (fun a => a ≠ '\n')).drop 1
      (if line = "---".toList then Block.hr else Block.other line) :: tokenize rest2
termination_by src.length
decreasing_by
  · exact matchPagebreak_length _ _ h
  · have h1 := lengthDropWhileLe (fun a => decide (a ≠ '\n')) (c :: cs)
    simp only [List.length_drop, List.length_cons] at h1 ⊢
    omega

theorem tokenize_pagebreak_step (src rest : List Char)
    (h : matchPagebreak src = some rest) :
    tokenize src = Block.pagebreakDiv :: tokenize rest := by
  cases src with
  | nil => exact absurd h (by simp [matchPagebreak, dropPrefixCh])
  | cons c cs =>
    rw [tokenize]
    split
    · rename_i rest2 heq
      rw [h] at heq
      injection heq with heq
      rw [heq]
    · rename_i heq
      rw [h] at heq
      cases heq

/-- **C7.** Wherever the page-break comment token matches, the extension's
tokenizer produces a `pagebreak` block token carrying the matched raw text,
the driver emits exactly one page-break block there and continues after the
token (one block per occurrence); the renderer's output is one single block
element carrying the `page-break` class; and a source beginning with `-`
(in particular a `---` horizontal-rule line) never matches the page-break
token — a `---` line tokenizes to a horizontal rule, not a page break. -/
theorem c7_pagebreak_token (src rest : List Char)
    (h : matchPagebreak src = some rest) :
    pagebreakTokenizer src
      = some (MarkedToken.pagebreak (src.take (src.length - rest.length))) ∧
    tokenize src = Block.pagebreakDiv :: tokenize rest ∧
    pagebreakExtensionLevel = "block" ∧
    countOccur ("page-break".toList) pagebreakRendererOutput = 1 ∧
    countOccur ("<div".toList) pagebreakRendererOutput = 1 ∧
    countOccur ("</div>".toList) pagebreakRendererOutput = 1 ∧
    (∀ t : List Char, matchPagebreak ('-' :: t) = none) ∧
    (∀ t : List Char,
      tokenize ('-' :: '-' :: '-' :: '\n' :: t) = Block.hr :: tokenize t) := by
  refine ⟨?_, tokenize_pagebreak_step src rest h, rfl, by decide, by decide, by decide,
    fun t => rfl, fun t => ?_⟩
  · unfold pagebreakTokenizer
    rw [h]
    rfl
  · rw [tokenize]
    simp [matchPagebreak, dropPrefixCh, List.takeWhile, List.dropWhile]

/-- Witness for C7: the canonical token with both optional spaces, followed
by the text `rest`, matches, tokenizes to one page-break block, and leaves
`rest` to be tokenized. -/
theorem c7_pagebreak_token_witness :
    pagebreakTokenizer ("<!-- pagebreak -->rest".toList)
      = some (MarkedToken.pagebreak ("<!-- pagebreak -->".toList)) ∧
    tokenize ("<!-- pagebreak -->rest".toList)
      = Block.pagebreakDiv :: tokenize ("rest".toList) := by
  have H := c7_pagebreak_token ("<!-- pagebreak -->rest".toList) ("rest".toList)
    (by decide)
  exact ⟨by rw [H.1]; decide, H.2.1⟩

/-! ## Header/footer templates (src/js/pdf-generator.js 489-527)

`buildHeaderFooterHtml` substitutes, in this order, every occurrence of
`{date}` with today's date, `{title}` with the extracted document title, and
`{pageNumber}` / `{totalPages}` with the empty string, then emits a
`print-header` / `print-footer` div holding the HTML-escaped result when the
corresponding flag is on, the template is non-empty and the substituted text
is not blank.  The substitution runs through
`String.prototype.replace(/pat/g, rep)`, which scans for the leftmost
occurrences without rescanning the replacement, and — crucially — interprets
`$`-escape sequences inside the replacement string: `$$` inserts a dollar,
`$&` the matched text, `$` followed by a backquote the part of the subject
before the match, and `$` followed by a quote the part after it (the
patterns here have no capture groups, so `$n` stays literal).
`expandReplacement` below models that expansion and `replaceAllJs` the
global replace.  The brace character `{` is written `'\x7b'` throughout. -/

def backquoteChar : Char := Char.ofNat 96

def singleQuoteChar : Char := Char.ofNat 39

/-- ECMAScript `GetSubstitution` for a string replacement with no capture
groups: `$$`, `$&`, a `$` followed by a backquote, and a `$` followed by a
quote are expanded against the matched text and the parts of the subject
before and after the match; any other `$` sequence is literal. -/
def expandReplacement (matched before after : List Char) : List Char → List Char
  | [] => []
  | c :: rest =>
    if c = '$' then
      match rest with
      | [] => ['$']
      | d :: rest2 =>
        if d = '$' then '$' :: expandReplacement matched before after rest2
        else if d = '&' then matched ++ expandReplacement matched before after rest2
        else if d = backquoteChar then before ++ expandReplacement matched before after rest2
        else if d = singleQuoteChar then after ++ expandReplacement matched before after rest2
        else '$' :: d :: expandReplacement matched before after rest2
    else c :: expandReplacement matched before after rest
termination_by rep => rep.length
decreasing_by
  all_goals simp only [List.length_cons]
  all_goals omega

/-- A replacement free of dollar characters expands to itself. -/
theorem expandReplacement_no_dollar (matched before after : List Char) :
    ∀ rep : List Char, '$' ∉ rep → expandReplacement matched before after rep = rep := by
  intro rep h
  induction rep with
  | nil => simp [expandReplacement]
  | cons c rest ih =>
    have hc : ¬ (c = '$') := by
      intro he
      exact absurd (List.mem_cons_self c rest) (he ▸ h)
    rw [expandReplacement.eq_def]
    simp only [if_neg hc]
    rw [ih (fun hm => h (List.mem_cons_of_mem _ hm))]

/-- The scan of `subject.replace(/pat/g, rep)` for a literal pattern:
`seenRev` holds the already-scanned part of the original subject in reverse
(the before-match context for `$`-escapes); the matched text of a literal
pattern is the pattern itself, and the after-match context is the rest of
the subject. -/
def replaceAllGo (pat rep seenRev : List Char) : List Char → List Char
  | [] => []
  | c :: cs =>
    if pat.isPrefixOf (c :: cs) then
      expandReplacement pat seenRev.reverse (List.drop (pat.length - 1) cs) rep
        ++ replaceAllGo pat rep (pat.reverse ++ seenRev) (List.drop (pat.length - 1) cs)
    else c :: replaceAllGo pat rep (c :: seenRev) cs
termination_by s => s.length
decreasing_by
  all_goals simp only [List.length_drop, List.length_cons]
  all_goals omega

/-- JavaScript `subject.replace(/pat/g, rep)` for a literal pattern and a
string replacement: leftmost-match, non-overlapping, the replacement is
`$`-expanded but never rescanned for further matches. -/
def replaceAllJs (pat rep s : List Char) : List Char :=
  replaceAllGo pat rep [] s

/-- A pattern whose first character occurs nowhere in the subject never
matches; the subject is returned unchanged whatever has been scanned so
far. -/
theorem replaceAllGo_head_notMem (p : Char) (ps rep : List Char) :
    ∀ s seenRev : List Char, p ∉ s → replaceAllGo (p :: ps) rep seenRev s = s := by
  intro s
  induction s with
  | nil =>
    intro seenRev _
    rw [replaceAllGo]
  | cons c cs ih =>
    intro seenRev h
    have hpc : (p == c) = false := by
      simp only [List.mem_cons, not_or] at h
      simp [beq_eq_false_iff_ne, h.1]
    rw [replaceAllGo]
    simp [List.isPrefixOf, hpc, ih _ (fun hm => h (List.mem_cons_of_mem _ hm))]

def dateTok : List Char := "\x7bdate\x7d".toList

def titleTok : List Char := "\x7btitle\x7d".toList

def pageNumberTok : List Char := "\x7bpageNumber\x7d".toList

def totalPagesTok : List Char := "\x7btotalPages\x7d".toList

/-- The four chained `.replace(...)` calls of pdf-generator.js lines
494-498 (and 505-509): date, then title, then pageNumber and totalPages,
the last two always with the empty string. -/
def substTemplate (tmpl today title : List Char) : List Char :=
  replaceAllJs totalPagesTok []
    (replaceAllJs pageNumberTok []
      (replaceAllJs titleTok title
        (replaceAllJs dateTok today tmpl)))

/-- One character of the DOM `textContent`/`innerHTML` round trip of
`escapeHtml` (pdf-generator.js lines 523-527): serializing a text node
escapes `&`, `<` and `>` and leaves every other character alone. -/
def escapeHtmlChar (c : Char) : List Char :=
  if c = '&' then "&amp;".toList
  else if c = '<' then "&lt;".toList
  else if c = '>' then "&gt;".toList
  else [c]

/-- `escapeHtml` (lines 523-527): DOM text-node serialization, character by
character.  This is `div.textContent = text; div.innerHTML`, not a
`String.replace` call, so no `$`-escape semantics are involved. -/
def escapeHtml (s : List Char) : List Char :=
  (s.map escapeHtmlChar).flatten

/-- JavaScript `String.prototype.trim` whitespace test (the common cases). -/
def jsWhitespace (c : Char) : Bool :=
  c == ' ' || c == '\t' || c == '\n' || c == '\r'

/-- `headerText.trim()`. -/
def jsTrim (s : List Char) : List Char :=
  ((s.dropWhile jsWhitespace).reverse.dropWhile jsWhitespace).reverse

/-- The header/footer slice of the settings object (ui-controller.js
getSettings, pdf-generator.js buildHeaderFooterHtml). -/
structure HFSettings where
  enableHeader : Bool
  headerTemplate : List Char
  enableFooter : Bool
  footerTemplate : List Char

/-- `extractTitle` (pdf-generator.js lines 355-358): the trimmed text of
the first `h1` element, or the empty string.  The container is the list of
its elements as `(tag, textContent)` pairs in document order. -/
def extractTitle (els : List (String × List Char)) : List Char :=
  match els.find? (fun e => e.1 == "h1") with
  | some e => jsTrim e.2
  | none => []

/-- `buildHeaderFooterHtml` (lines 489-516). -/
def buildHeaderFooterHtml (s : HFSettings) (today title : List Char) : List Char :=
  let header :=
    if s.enableHeader && !s.headerTemplate.isEmpty then
      let headerText := substTemplate s.headerTemplate today title
      if !(jsTrim headerText).isEmpty then
        "<div class=\x22print-header\x22>".toList ++ escapeHtml headerText
          ++ "</div>".toList
      else []
    else []
  let footer :=
    if s.enableFooter && !s.footerTemplate.isEmpty then
      let footerText := substTemplate s.footerTemplate today title
      if !(jsTrim footerText).isEmpty then
        "<div class=\x22print-footer\x22>".toList ++ escapeHtml footerText
          ++ "</div>".toList
      else []
    else []
  header ++ footer

/-- **C8 counterexample.** `{title}` is not always substituted with the
document title: `String.prototype.replace` interprets `$`-escapes in the
replacement, so a document whose first heading is `a$&b` turns the template
`{title}` into the literal text `a{title}b` — the token text is re-inserted
instead of the title. -/
theorem c8_counterexample :
    substTemplate ("\x7btitle\x7d".toList) ("2026/10/12".toList) ("a$&b".toList)
      = "a\x7btitle\x7db".toList ∧
    substTemplate ("\x7btitle\x7d".toList) ("2026/10/12".toList) ("a$&b".toList)
      ≠ "a$&b".toList := by
  have h : substTemplate ("\x7btitle\x7d".toList) ("2026/10/12".toList) ("a$&b".toList)
      = "a\x7btitle\x7db".toList := by
    simp [substTemplate, replaceAllJs, replaceAllGo, expandReplacement,
      dateTok, titleTok, pageNumberTok, totalPagesTok, backquoteChar, singleQuoteChar]
  refine ⟨h, ?_⟩
  rw [h]
  decide

/-- **C8 amended.** Template substitution at export time runs through
`String.prototype.replace`, which `$`-expands the substituted values: for
any date and title free of brace and dollar characters, `{date}` becomes the
date and `{title}` the document title literally — the template
`{title} - {date}` becomes `title ++ " - " ++ today` — while `$`-escapes in
a title re-insert match text (see the counterexample); `{pageNumber}` and
`{totalPages}` are always substituted with the empty string, whatever the
date and title; the title is the trimmed text of the first top-level
heading; and with title `Spec` and date `2026/10/12` the header renders as
the literal `Spec - 2026/10/12` inside the `print-header` element. -/
theorem c8_template_substitution (today title : List Char)
    (hd : '\x7b' ∉ today) (ht : '\x7b' ∉ title)
    (hd2 : '$' ∉ today) (ht2 : '$' ∉ title) :
    substTemplate ("\x7btitle\x7d - \x7bdate\x7d".toList) today title
      = title ++ " - ".toList ++ today ∧
    (∀ t ti : List Char, substTemplate pageNumberTok t ti = []) ∧
    (∀ t ti : List Char, substTemplate totalPagesTok t ti = []) ∧
    (∀ t ti : List Char,
      substTemplate ("Page \x7bpageNumber\x7d of \x7btotalPages\x7d".toList) t ti
        = "Page  of ".toList) ∧
    extractTitle [("h1", " Spec ".toList)] = "Spec".toList ∧
    buildHeaderFooterHtml
        ⟨true, "\x7btitle\x7d - \x7bdate\x7d".toList, false, []⟩
        ("2026/10/12".toList) ("Spec".toList)
      = "<div class=\x22print-header\x22>Spec - 2026/10/12</div>".toList := by
  have hstep : substTemplate ("\x7btitle\x7d - \x7bdate\x7d".toList) today title
      = title ++ (" - ".toList ++ today) := by
    unfold substTemplate
    have e1 : replaceAllJs dateTok today ("\x7btitle\x7d - \x7bdate\x7d".toList)
        = "\x7btitle\x7d - ".toList ++ today := by
      simp [replaceAllJs, replaceAllGo, dateTok]
      exact expandReplacement_no_dollar _ _ _ today hd2
    rw [e1]
    have e2 : replaceAllJs titleTok title ("\x7btitle\x7d - ".toList ++ today)
        = title ++ (" - ".toList ++ today) := by
      simp only [titleTok, replaceAllJs]
      simp [replaceAllGo]
      rw [replaceAllGo_head_notMem _ _ _ today _ hd,
        expandReplacement_no_dollar _ _ _ title ht2]
    rw [e2]
    have hall : '\x7b' ∉ title ++ (" - ".toList ++ today) := by
      intro hmem
      rcases List.mem_append.mp hmem with h1 | h2
      · exact ht h1
      · rcases List.mem_append.mp h2 with h3 | h4
        · simp at h3
        · exact hd h4
    have e3 : replaceAllJs pageNumberTok [] (title ++ (" - ".toList ++ today))
        = title ++ (" - ".toList ++ today) := by
      have hp : pageNumberTok = '\x7b' :: "pageNumber\x7d".toList := rfl
      rw [replaceAllJs, hp]
      exact replaceAllGo_head_notMem _ _ _ _ _ hall
    rw [e3]
    have hp : totalPagesTok = '\x7b' :: "totalPages\x7d".toList := rfl
    rw [replaceAllJs, hp]
    exact replaceAllGo_head_notMem _ _ _ _ _ hall
  refine ⟨by rw [hstep]; simp, fun t ti => ?_, fun t ti => ?_, fun t ti => ?_,
    by decide, ?_⟩
  · simp [substTemplate, replaceAllJs, replaceAllGo, expandReplacement,
      dateTok, titleTok, pageNumberTok, totalPagesTok]
  · simp [substTemplate, replaceAllJs, replaceAllGo, expandReplacement,
      dateTok, titleTok, pageNumberTok, totalPagesTok]
  · simp [substTemplate, replaceAllJs, replaceAllGo, expandReplacement,
      dateTok, titleTok, pageNumberTok, totalPagesTok]
  · simp [buildHeaderFooterHtml, substTemplate, replaceAllJs, replaceAllGo,
      expandReplacement, escapeHtml, escapeHtmlChar, jsTrim, jsWhitespace,
      dateTok, titleTok, pageNumberTok, totalPagesTok, List.dropWhile]

/-- Witness for C8 amended with the concrete date `2026/10/12` and title
`Spec` (both brace- and dollar-free). -/
theorem c8_template_substitution_witness :
    substTemplate ("\x7btitle\x7d - \x7bdate\x7d".toList)
        ("2026/10/12".toList) ("Spec".toList)
      = "Spec - 2026/10/12".toList ∧
    substTemplate pageNumberTok ("2026/10/12".toList) ("Spec".toList) = [] := by
  have H := c8_template_substitution ("2026/10/12".toList) ("Spec".toList)
    (by decide) (by decide) (by decide) (by decide)
  exact ⟨by rw [H.1]; decide, H.2.1 _ _⟩

end MdToPdf
